import Mathlib

/-!
Shallow embedding of `src/Transcripto.py`.

File paths are modelled as lists of characters (Python strings), the file
system as an association list from paths to file contents, and the Qt
interaction shell as pure state-transition functions over an explicit
application state.  Delegated speech-model behaviour (loading the Whisper
model, the lazy segment stream yielded by `model.transcribe`) enters as
explicit parameters; a raised Python exception is an `Except.error`.
-/

namespace Transcripto

/-- A file path, as a list of characters (a Python `str`). -/
abbrev Path := List Char

/-- Index of the last occurrence of `c` in the list (Python `str.rfind`,
with `none` for the sentinel `-1`). -/
def lastIndexOf (c : Char) : Path → Option Nat
  | [] => none
  | x :: xs =>
    match lastIndexOf c xs with
    | some i => some (i + 1)
    | none => if x = c then some 0 else none

/-- Python `os.path.splitext` (posix): the extension starts at the last dot,
provided the last path component has a character other than a dot somewhere
before that dot. -/
def splitext (p : Path) : Path × Path :=
  match lastIndexOf '.' p with
  | none => (p, [])
  | some dotIndex =>
    let firstIndex : Nat :=
      match lastIndexOf '/' p with
      | none => 0
      | some i => i + 1
    if firstIndex ≤ dotIndex ∧
        ((p.drop firstIndex).take (dotIndex - firstIndex)).any (fun ch => ch ≠ '.') then
      (p.take dotIndex, p.drop dotIndex)
    else
      (p, [])

/-- Python `os.path.basename` (posix). -/
def basename (p : Path) : Path :=
  match lastIndexOf '/' p with
  | none => p
  | some i => p.drop (i + 1)

/-- Python `str.lower`, on the ASCII range that file extensions use. -/
def lowerPath (p : Path) : Path := p.map Char.toLower

/-- Python `s.endswith(t)`. -/
def pyEndsWith (s t : Path) : Bool := t.isSuffixOf s

/-- One paragraph of a python-docx document. -/
inductive Para
  | heading (text : String) (level : Nat)
  | body (text : String)
deriving DecidableEq

/-- One segment returned by the Whisper model.  Its timing bounds are never
read by the program and are omitted. -/
structure Segment where
  text : String
deriving DecidableEq

/-- The exceptions the program raises or observes. -/
inductive Err
  | fileNotFoundError (msg : String)
  | valueError (msg : String)
  | delegatedError (msg : String)
deriving DecidableEq

/-- Python `str(e)`. -/
def Err.message : Err → String
  | .fileNotFoundError m => m
  | .valueError m => m
  | .delegatedError m => m

/-- Contents of a file on disk: an opaque input media file, an audio track
extracted from a video, or a saved docx document. -/
inductive FileData
  | media
  | audioExtract (src : Path)
  | doc (paras : List Para)
deriving DecidableEq

/-- The file system: an association list from paths to contents. -/
abbrev FS := List (Path × FileData)

/-- Contents at path `p`, when `p` exists. -/
def fsLookup : FS → Path → Option FileData
  | [], _ => none
  | (q, d) :: rest, p => if q = p then some d else fsLookup rest p

/-- Python `os.path.exists`. -/
def fsExists (fs : FS) (p : Path) : Bool := (fsLookup fs p).isSome

/-- A write to the file system, creating or overwriting `p`. -/
def fsWrite (fs : FS) (p : Path) (d : FileData) : FS := (p, d) :: fs

/-- Source line 16. -/
def supported_audio_formats : List Path := [".wav".toList, ".mp3".toList, ".m4a".toList]

/-- Source line 17. -/
def supported_video_formats : List Path :=
  [".mp4".toList, ".avi".toList, ".mov".toList, ".mkv".toList]

/-- Source `validate_and_convert_file`: validates the input path and extracts
the audio track to a sibling `.mp3` file when the input is a video container. -/
def validate_and_convert_file (fs : FS) (file_path : Path) : Except Err Path × FS :=
  if fsExists fs file_path = false then
    (.error (.fileNotFoundError "Le fichier n\x27existe pas."), fs)
  else
    let file_extension := lowerPath (splitext file_path).2
    if file_extension ∈ supported_audio_formats then
      (.ok file_path, fs)
    else if file_extension ∈ supported_video_formats then
      let audio_path := (splitext file_path).1 ++ ".mp3".toList
      (.ok audio_path, fsWrite fs audio_path (.audioExtract file_path))
    else
      (.error (.valueError
        "Format de fichier non pris en charge. Formats supportés : WAV, MP3, M4A, MP4, AVI, MOV, MKV."),
        fs)

/-- The docx paragraph loop of `transcribe_audio`: one body paragraph is
appended per yielded segment; a stream entry that raises propagates the
exception before anything further happens. -/
def consumeSegments (doc : List Para) : List (Except Err Segment) → Except Err (List Para)
  | [] => .ok doc
  | .ok s :: rest => consumeSegments (doc ++ [.body s.text]) rest
  | .error e :: _ => .error e

/-- Source `transcribe_audio`: loads the model, transcribes `file_path` and
saves the resulting document to `output_path`.  `modelLoad` models
`WhisperModel("medium")` and `model` the lazy segment stream returned by
`model.transcribe`. -/
def transcribe_audio (modelLoad : Except Err Unit)
    (model : Path → List (Except Err Segment))
    (file_path output_path : Path) (fs : FS) : Except Err Unit × FS :=
  match modelLoad with
  | .error e => (.error e, fs)
  | .ok _ =>
    match consumeSegments [Para.heading "Transcription" 1] (model file_path) with
    | .error e => (.error e, fs)
    | .ok paras => (.ok (), fsWrite fs output_path (.doc paras))

/-- The mutable state of `TranscriptionApp`: the two selected paths and the
three labels the handlers touch. -/
structure AppState where
  selected_file : Option Path
  output_file : Option Path
  file_label : String
  output_label : String
  status_label : String
deriving DecidableEq

/-- A modal message box shown by the shell. -/
inductive Dialog
  | warning (title msg : String)
  | critical (title msg : String)
  | information (title msg : String)
deriving DecidableEq

/-- Source `TranscriptionApp.select_file`; `file_path` is what the open dialog
returned, the empty string when the dialog was cancelled. -/
def select_file (st : AppState) (file_path : Path) : AppState :=
  if file_path = [] then st
  else
    { st with
      selected_file := some file_path,
      file_label := "Fichier sélectionné : " ++ String.mk (basename file_path) }

/-- Source `TranscriptionApp.select_output_file`; `file_path` is what the save
dialog returned, the empty string when the dialog was cancelled. -/
def select_output_file (st : AppState) (file_path : Path) : AppState :=
  if file_path = [] then st
  else
    let fp := if pyEndsWith file_path ".docx".toList then file_path
              else file_path ++ ".docx".toList
    { st with
      output_file := some fp,
      output_label := "Fichier de sortie : " ++ String.mk (basename fp) }

/-- Source `TranscriptionApp.transcribe`: the trigger handler.  Returns the
new state, the new file system and the modal dialogs shown, in order. -/
def transcribe (modelLoad : Except Err Unit)
    (model : Path → List (Except Err Segment))
    (st : AppState) (fs : FS) : AppState × FS × List Dialog :=
  match st.selected_file with
  | none =>
    (st, fs, [.warning "Erreur" "Veuillez sélectionner un fichier avant de continuer."])
  | some selected =>
    match st.output_file with
    | none =>
      (st, fs, [.warning "Erreur" "Veuillez sélectionner un emplacement de fichier de sortie."])
    | some out =>
      match validate_and_convert_file fs selected with
      | (.error e, fs₁) =>
        ({ st with status_label := "Une erreur s\x27est produite." }, fs₁,
          [.critical "Erreur" e.message])
      | (.ok audio_path, fs₁) =>
        let st₁ := { st with status_label := "Transcription en cours... Veuillez patienter." }
        match transcribe_audio modelLoad model audio_path out fs₁ with
        | (.error e, fs₂) =>
          ({ st₁ with status_label := "Une erreur s\x27est produite." }, fs₂,
            [.critical "Erreur" e.message])
        | (.ok _, fs₂) =>
          ({ st₁ with status_label := "Transcription terminée avec succès !" }, fs₂,
            [.information "Succès"
              ("La transcription a été enregistrée dans " ++ String.mk out ++ ".")])

/-! Shared concrete sample values used by the witnesses. -/

/-- A blank application state: nothing selected yet. -/
def stNone : AppState := ⟨none, none, "", "", ""⟩

/-- A state with an input selected but no output location. -/
def stOutNone : AppState := ⟨some "a.wav".toList, none, "", "", ""⟩

/-- A state with both paths selected. -/
def stReady : AppState :=
  ⟨some "a.wav".toList, some "out.docx".toList, "", "", ""⟩

/-- A state whose selected input does not exist on the sample disk. -/
def stMissing : AppState :=
  ⟨some "missing.wav".toList, some "out.docx".toList, "", "", ""⟩

/-- A sample disk holding one audio file. -/
def fsAudio : FS := [("a.wav".toList, .media)]

/-- A model stream yielding no segments. -/
def noModel : Path → List (Except Err Segment) := fun _ => []

/-- A model stream that raises on its first yielded segment. -/
def errModel : Path → List (Except Err Segment) :=
  fun _ => [.error (.delegatedError "model failure")]

/-! Helper lemmas about the embedded operations. -/

theorem splitext_append (p : Path) : (splitext p).1 ++ (splitext p).2 = p := by
  unfold splitext
  split
  · simp
  · split <;> dsimp only <;> split <;> simp [List.take_append_drop]

theorem fsLookup_fsWrite_self (fs : FS) (p : Path) (d : FileData) :
    fsLookup (fsWrite fs p d) p = some d := by
  simp [fsLookup, fsWrite]

theorem fsLookup_fsWrite_other (fs : FS) (p q : Path) (d : FileData) (h : q ≠ p) :
    fsLookup (fsWrite fs p d) q = fsLookup fs q := by
  simp only [fsWrite, fsLookup]
  rw [if_neg (fun h2 => h h2.symm)]

theorem video_not_audio {x : Path} (h : x ∈ supported_video_formats) :
    x ∉ supported_audio_formats := by
  simp only [supported_video_formats, List.mem_cons, List.not_mem_nil, or_false] at h
  rcases h with h | h | h | h <;> subst h <;> decide

theorem consumeSegments_all_ok (segs : List Segment) (acc : List Para) :
    consumeSegments acc (segs.map Except.ok) =
      .ok (acc ++ segs.map fun s => .body s.text) := by
  induction segs generalizing acc with
  | nil => simp [consumeSegments]
  | cons s rest ih =>
    simp only [List.map_cons, consumeSegments, ih, List.append_assoc, List.singleton_append]

theorem consumeSegments_raises (pre : List Segment) (e : Err)
    (post : List (Except Err Segment)) (acc : List Para) :
    consumeSegments acc (pre.map Except.ok ++ .error e :: post) = .error e := by
  induction pre generalizing acc with
  | nil => rfl
  | cons s rest ih => simpa [consumeSegments] using ih _

theorem pyEndsWith_iff (s t : Path) : pyEndsWith s t = true ↔ t <:+ s := by
  simp [pyEndsWith, List.isSuffixOf_iff_suffix]

theorem suffix_eq_drop (v s : Path) (h : v <:+ s) :
    v = s.drop (s.length - v.length) := by
  obtain ⟨u, rfl⟩ := h
  rw [List.length_append, Nat.add_sub_cancel, List.drop_left]

theorem suffix_eq_of_length_eq (v w s : Path)
    (hv : v <:+ s) (hw : w <:+ s) (hl : v.length = w.length) : v = w := by
  rw [suffix_eq_drop v s hv, suffix_eq_drop w s hw, hl]

theorem validate_and_convert_error_eq (fs : FS) (p : Path) (e : Err)
    (h : (validate_and_convert_file fs p).1 = Except.error e) :
    validate_and_convert_file fs p = (Except.error e, fs) := by
  by_cases h₁ : fsExists fs p = false
  · simp only [validate_and_convert_file, if_pos h₁] at h ⊢
    simp only [Except.error.injEq] at h
    rw [h]
  · by_cases h₂ : lowerPath (splitext p).2 ∈ supported_audio_formats
    · simp [validate_and_convert_file, h₁, h₂] at h
    · by_cases h₃ : lowerPath (splitext p).2 ∈ supported_video_formats
      · simp [validate_and_convert_file, h₁, h₂, h₃] at h
      · simp only [validate_and_convert_file, if_neg h₁, if_neg h₂, if_neg h₃] at h ⊢
        simp only [Except.error.injEq] at h
        rw [h]

theorem transcribe_audio_error_eq (ml : Except Err Unit)
    (model : Path → List (Except Err Segment)) (fp out : Path) (fs : FS) (e : Err)
    (h : (transcribe_audio ml model fp out fs).1 = Except.error e) :
    transcribe_audio ml model fp out fs = (Except.error e, fs) := by
  unfold transcribe_audio at h ⊢
  cases ml with
  | error e2 =>
    simp only [Except.error.injEq] at h
    rw [h]
  | ok u =>
    cases hc : consumeSegments [Para.heading "Transcription" 1] (model fp) with
    | error e2 => simp_all
    | ok paras =>
      rw [hc] at h
      simp at h

/-! The claims. -/

/-- C2: for every existing path whose extension, lowercased, is one of the
three recognized audio extensions, `validate_and_convert_file` returns the
path unchanged and leaves the file system exactly as it was (no write). -/
theorem validate_audio_passthrough (fs : FS) (p : Path)
    (hex : fsExists fs p = true)
    (hfmt : lowerPath (splitext p).2 ∈ supported_audio_formats) :
    validate_and_convert_file fs p = (.ok p, fs) := by
  simp [validate_and_convert_file, hex, hfmt]

/-- C2 witness: a mixed-case `.WaV` file is returned unchanged with no write. -/
theorem validate_audio_passthrough_witness :
    validate_and_convert_file [("Audio.WaV".toList, .media)] "Audio.WaV".toList =
      (.ok "Audio.WaV".toList, [("Audio.WaV".toList, .media)]) :=
  validate_audio_passthrough [("Audio.WaV".toList, .media)] "Audio.WaV".toList
    (by decide) (by decide)

/-- C3: for every existing path whose extension, lowercased, is one of the
four recognized video extensions, `validate_and_convert_file` writes exactly
one sibling file, at the input path with its extension replaced by `.mp3`
(the stem concatenated with `.mp3`, where stem and extension concatenate back
to the input path), returns that sibling path, and changes no other path of
the file system — in particular the original file, whose path differs from
the sibling path, is untouched. -/
theorem validate_video_extraction (fs : FS) (p : Path)
    (hex : fsExists fs p = true)
    (hfmt : lowerPath (splitext p).2 ∈ supported_video_formats) :
    validate_and_convert_file fs p =
      (.ok ((splitext p).1 ++ ".mp3".toList),
        fsWrite fs ((splitext p).1 ++ ".mp3".toList) (.audioExtract p)) ∧
    (splitext p).1 ++ (splitext p).2 = p ∧
    (splitext p).1 ++ ".mp3".toList ≠ p ∧
    fsLookup (validate_and_convert_file fs p).2 ((splitext p).1 ++ ".mp3".toList) =
      some (.audioExtract p) ∧
    (∀ q, q ≠ (splitext p).1 ++ ".mp3".toList →
      fsLookup (validate_and_convert_file fs p).2 q = fsLookup fs q) := by
  have hna := video_not_audio hfmt
  have h1 : validate_and_convert_file fs p =
      (.ok ((splitext p).1 ++ ".mp3".toList),
        fsWrite fs ((splitext p).1 ++ ".mp3".toList) (.audioExtract p)) := by
    simp [validate_and_convert_file, hex, hna, hfmt]
  have hne : (splitext p).1 ++ ".mp3".toList ≠ p := by
    intro hcontra
    have hext : ".mp3".toList = (splitext p).2 :=
      List.append_cancel_left (hcontra.trans (splitext_append p).symm)
    rw [← hext] at hfmt
    exact absurd hfmt (by decide)
  refine ⟨h1, splitext_append p, hne, ?_, ?_⟩
  · rw [h1]
    exact fsLookup_fsWrite_self fs _ _
  · intro q hq
    rw [h1]
    exact fsLookup_fsWrite_other fs _ q _ hq

/-- C3 witness: extracting from `clip.mp4` writes `clip.mp3` and returns it;
the original `clip.mp4` is untouched. -/
theorem validate_video_extraction_witness :
    validate_and_convert_file [("clip.mp4".toList, .media)] "clip.mp4".toList =
      (.ok "clip.mp3".toList,
        [("clip.mp3".toList, .audioExtract "clip.mp4".toList),
          ("clip.mp4".toList, .media)]) ∧
    fsLookup (validate_and_convert_file [("clip.mp4".toList, .media)]
        "clip.mp4".toList).2 "clip.mp4".toList = some .media :=
  ⟨(validate_video_extraction [("clip.mp4".toList, .media)] "clip.mp4".toList
      (by decide) (by decide)).1,
    ((validate_video_extraction [("clip.mp4".toList, .media)] "clip.mp4".toList
      (by decide) (by decide)).2.2.2.2 "clip.mp4".toList (by decide)).trans (by decide)⟩

/-- C4: a nonexistent path fails with the not-found condition, whatever its
extension (the existence check precedes classification), and an existing path
whose lowercased extension is in neither recognized set fails with the
unsupported-format condition naming the supported formats; in both cases the
file system is returned exactly as it was (no write). -/
theorem validate_failure_cases :
    (∀ (fs : FS) (p : Path), fsExists fs p = false →
      validate_and_convert_file fs p =
        (.error (.fileNotFoundError "Le fichier n\x27existe pas."), fs)) ∧
    (∀ (fs : FS) (p : Path), fsExists fs p = true →
      lowerPath (splitext p).2 ∉ supported_audio_formats →
      lowerPath (splitext p).2 ∉ supported_video_formats →
      validate_and_convert_file fs p =
        (.error (.valueError
          "Format de fichier non pris en charge. Formats supportés : WAV, MP3, M4A, MP4, AVI, MOV, MKV."),
          fs)) := by
  constructor
  · intro fs p h
    simp [validate_and_convert_file, h]
  · intro fs p h h1 h2
    simp [validate_and_convert_file, h, h1, h2]

/-- C4 witness: a missing file with a recognized audio extension still fails
not-found, and an existing `.txt` file fails unsupported-format; neither call
changes the file system. -/
theorem validate_failure_cases_witness :
    validate_and_convert_file [] "missing.wav".toList =
      (.error (.fileNotFoundError "Le fichier n\x27existe pas."), []) ∧
    validate_and_convert_file [("a.txt".toList, .media)] "a.txt".toList =
      (.error (.valueError
        "Format de fichier non pris en charge. Formats supportés : WAV, MP3, M4A, MP4, AVI, MOV, MKV."),
        [("a.txt".toList, .media)]) :=
  ⟨validate_failure_cases.1 [] "missing.wav".toList (by decide),
    validate_failure_cases.2 [("a.txt".toList, .media)] "a.txt".toList
      (by decide) (by decide) (by decide)⟩

/-- C1: for every finite list of `N` segments returned by the model
(including `N = 0`), `transcribe_audio` succeeds and saves at the destination
path a document whose paragraph sequence is exactly one level-1 heading
`Transcription` followed by the `N` segment texts as body paragraphs in
order, with no other paragraphs; every other path of the file system is
unchanged. -/
theorem transcribe_audio_document_shape
    (segs : List Segment) (model : Path → List (Except Err Segment))
    (fp out : Path) (fs : FS)
    (hm : model fp = segs.map Except.ok) :
    transcribe_audio (.ok ()) model fp out fs =
      (.ok (), fsWrite fs out
        (.doc (Para.heading "Transcription" 1 :: segs.map fun s => .body s.text))) ∧
    fsLookup (transcribe_audio (.ok ()) model fp out fs).2 out =
      some (.doc (Para.heading "Transcription" 1 :: segs.map fun s => .body s.text)) ∧
    (∀ q, q ≠ out →
      fsLookup (transcribe_audio (.ok ()) model fp out fs).2 q = fsLookup fs q) := by
  have h1 : transcribe_audio (.ok ()) model fp out fs =
      (.ok (), fsWrite fs out
        (.doc (Para.heading "Transcription" 1 :: segs.map fun s => .body s.text))) := by
    simp [transcribe_audio, hm, consumeSegments_all_ok]
  refine ⟨h1, ?_, ?_⟩
  · rw [h1]
    exact fsLookup_fsWrite_self fs out _
  · intro q hq
    rw [h1]
    exact fsLookup_fsWrite_other fs out q _ hq

/-- C1 witness: two segments produce a heading plus exactly two body
paragraphs, saved at the destination path. -/
theorem transcribe_audio_document_shape_witness :
    transcribe_audio (.ok ()) (fun _ => [.ok ⟨"Bonjour"⟩, .ok ⟨"monde"⟩])
        "a.wav".toList "out.docx".toList [] =
      (.ok (), [("out.docx".toList,
        .doc [Para.heading "Transcription" 1, .body "Bonjour", .body "monde"])]) :=
  (transcribe_audio_document_shape [⟨"Bonjour"⟩, ⟨"monde"⟩]
      (fun _ => [.ok ⟨"Bonjour"⟩, .ok ⟨"monde"⟩]) "a.wav".toList "out.docx".toList
      [] rfl).1

/-- C7: if model loading fails, or the segment stream raises at any point
(after any prefix of successfully yielded segments), `transcribe_audio`
propagates the error and returns the file system exactly as it was, so
nothing is written to the destination; in general whenever it returns an
error the file system is unchanged, because the document is saved only after
every segment has been consumed. -/
theorem transcribe_audio_failure_writes_nothing :
    (∀ (e : Err) (model : Path → List (Except Err Segment)) (fp out : Path) (fs : FS),
      transcribe_audio (.error e) model fp out fs = (.error e, fs)) ∧
    (∀ (model : Path → List (Except Err Segment)) (fp out : Path) (fs : FS)
        (pre : List Segment) (e : Err) (post : List (Except Err Segment)),
      model fp = pre.map Except.ok ++ .error e :: post →
      transcribe_audio (.ok ()) model fp out fs = (.error e, fs)) ∧
    (∀ (ml : Except Err Unit) (model : Path → List (Except Err Segment))
        (fp out : Path) (fs : FS) (e : Err),
      (transcribe_audio ml model fp out fs).1 = .error e →
      transcribe_audio ml model fp out fs = (.error e, fs)) := by
  refine ⟨?_, ?_, ?_⟩
  · intro e model fp out fs
    rfl
  · intro model fp out fs pre e post hm
    simp [transcribe_audio, hm, consumeSegments_raises]
  · intro ml model fp out fs e h
    exact transcribe_audio_error_eq ml model fp out fs e h

/-- C7 witness: a model-load failure and a first-segment failure both
propagate and leave the (empty) file system untouched. -/
theorem transcribe_audio_failure_writes_nothing_witness :
    transcribe_audio (.error (.delegatedError "load failure")) noModel
        "a.wav".toList "out.docx".toList [] =
      (.error (.delegatedError "load failure"), []) ∧
    transcribe_audio (.ok ()) errModel "a.wav".toList "out.docx".toList [] =
      (.error (.delegatedError "model failure"), []) :=
  ⟨transcribe_audio_failure_writes_nothing.1 (.delegatedError "load failure")
      noModel "a.wav".toList "out.docx".toList [],
    transcribe_audio_failure_writes_nothing.2.1 errModel "a.wav".toList
      "out.docx".toList [] [] (.delegatedError "model failure") [] rfl⟩

/-- C5: triggering with no input selected, or with an input selected but no
output location, shows exactly one blocking warning dialog and returns with
the application state (labels and status line included) and the file system
unchanged: the normalizer and the transcriber are not invoked and there is no
other side effect. -/
theorem transcribe_missing_path_warns :
    (∀ (ml : Except Err Unit) (model : Path → List (Except Err Segment))
        (st : AppState) (fs : FS), st.selected_file = none →
      transcribe ml model st fs =
        (st, fs,
          [.warning "Erreur" "Veuillez sélectionner un fichier avant de continuer."])) ∧
    (∀ (ml : Except Err Unit) (model : Path → List (Except Err Segment))
        (st : AppState) (fs : FS) (p : Path),
      st.selected_file = some p → st.output_file = none →
      transcribe ml model st fs =
        (st, fs,
          [.warning "Erreur" "Veuillez sélectionner un emplacement de fichier de sortie."])) := by
  constructor
  · intro ml model st fs h
    simp [transcribe, h]
  · intro ml model st fs p h1 h2
    simp [transcribe, h1, h2]

/-- C5 witness: both missing-path situations warn and change nothing. -/
theorem transcribe_missing_path_warns_witness :
    transcribe (.ok ()) noModel stNone [] =
      (stNone, [],
        [.warning "Erreur" "Veuillez sélectionner un fichier avant de continuer."]) ∧
    transcribe (.ok ()) noModel stOutNone [] =
      (stOutNone, [],
        [.warning "Erreur" "Veuillez sélectionner un emplacement de fichier de sortie."]) :=
  ⟨transcribe_missing_path_warns.1 (.ok ()) noModel stNone [] rfl,
    transcribe_missing_path_warns.2 (.ok ()) noModel stOutNone [] "a.wav".toList
      rfl rfl⟩

/-- C6: for every non-empty chosen save path, the stored output path is the
chosen path with `.docx` appended when the chosen path does not already end
in `.docx`, and the chosen path unchanged when it does; `notes` stores
`notes.docx`, `notes.docx` stores `notes.docx` with no double extension, and
the stored path always ends in `.docx`. -/
theorem select_output_appends_docx :
    (∀ (st : AppState) (chosen : Path), chosen ≠ [] → ¬ ".docx".toList <:+ chosen →
      (select_output_file st chosen).output_file = some (chosen ++ ".docx".toList)) ∧
    (∀ (st : AppState) (chosen : Path), chosen ≠ [] → ".docx".toList <:+ chosen →
      (select_output_file st chosen).output_file = some chosen) ∧
    (∀ (st : AppState) (chosen : Path), chosen ≠ [] →
      ∃ stored, (select_output_file st chosen).output_file = some stored ∧
        ".docx".toList <:+ stored) ∧
    (∀ st : AppState,
      (select_output_file st "notes".toList).output_file = some "notes.docx".toList) ∧
    (∀ st : AppState,
      (select_output_file st "notes.docx".toList).output_file =
        some "notes.docx".toList) := by
  have hfalse : ∀ chosen : Path, ¬ ".docx".toList <:+ chosen →
      pyEndsWith chosen ".docx".toList = false := by
    intro chosen h
    rw [Bool.eq_false_iff]
    intro hc
    exact h ((pyEndsWith_iff chosen ".docx".toList).mp hc)
  refine ⟨?_, ?_, ?_, ?_, ?_⟩
  · intro st chosen h0 h1
    simp [select_output_file, h0,
      show pyEndsWith chosen ['.', 'd', 'o', 'c', 'x'] = false from hfalse chosen h1]
  · intro st chosen h0 h1
    simp [select_output_file, h0,
      show pyEndsWith chosen ['.', 'd', 'o', 'c', 'x'] = true from
        (pyEndsWith_iff chosen ".docx".toList).mpr h1]
  · intro st chosen h0
    by_cases hb : pyEndsWith chosen ".docx".toList
    · exact ⟨chosen,
        by simp [select_output_file, h0,
          show pyEndsWith chosen ['.', 'd', 'o', 'c', 'x'] = true from hb],
        (pyEndsWith_iff chosen ".docx".toList).mp hb⟩
    · exact ⟨chosen ++ ".docx".toList,
        by simp [select_output_file, h0,
          show pyEndsWith chosen ['.', 'd', 'o', 'c', 'x'] = false from
            Bool.eq_false_iff.mpr hb],
        List.suffix_append chosen ".docx".toList⟩
  · intro st
    rfl
  · intro st
    rfl

/-- C6 witness: `report` stores `report.docx`, `report.docx` stores itself. -/
theorem select_output_appends_docx_witness :
    (select_output_file stNone "report".toList).output_file =
      some "report.docx".toList ∧
    (select_output_file stNone "report.docx".toList).output_file =
      some "report.docx".toList :=
  ⟨select_output_appends_docx.1 stNone "report".toList (by decide) (by decide),
    select_output_appends_docx.2.1 stNone "report.docx".toList (by decide)
      (by decide)⟩

/-- C9: the `.docx` suffix check is case-sensitive: for every non-empty
save-dialog choice ending in an uppercase or mixed-case variant of the
extension — a five-character suffix that lowercases to `.docx` but is not
`.docx` itself — the `endswith` test fails, so `.docx` is appended and the
stored output path carries the double extension; in particular `notes.DOCX`
stores `notes.DOCX.docx`. -/
theorem select_output_case_sensitive_docx :
    (∀ (st : AppState) (chosen v : Path),
      chosen ≠ [] → v <:+ chosen →
      lowerPath v = ".docx".toList → v ≠ ".docx".toList →
      (select_output_file st chosen).output_file =
        some (chosen ++ ".docx".toList)) ∧
    (∀ st : AppState, (select_output_file st "notes.DOCX".toList).output_file =
      some "notes.DOCX.docx".toList) ∧
    pyEndsWith "notes.DOCX".toList ".docx".toList = false := by
  refine ⟨?_, fun _ => rfl, rfl⟩
  intro st chosen v h0 hsuf hlow hne
  have hlen : v.length = (".docx".toList : Path).length := by
    rw [← hlow]
    simp [lowerPath]
  have hfalse : pyEndsWith chosen ".docx".toList = false := by
    rw [Bool.eq_false_iff]
    intro hc
    exact hne (suffix_eq_of_length_eq v (".docx".toList) chosen hsuf
      ((pyEndsWith_iff chosen ".docx".toList).mp hc) hlen)
  simp [select_output_file, h0,
    show pyEndsWith chosen ['.', 'd', 'o', 'c', 'x'] = false from hfalse]

/-- C9 witness: `notes.DOCX` ends in the uppercase variant `.DOCX`, so the
stored output path is the double-extension `notes.DOCX.docx`. -/
theorem select_output_case_sensitive_docx_witness :
    (select_output_file stNone "notes.DOCX".toList).output_file =
      some "notes.DOCX.docx".toList :=
  select_output_case_sensitive_docx.1 stNone "notes.DOCX".toList ".DOCX".toList
    (by decide) (by decide) (by decide) (by decide)

/-- C8: with both paths set, a failure raised by the normalizer aborts
everything downstream — the transcriber never runs and the file system is
exactly the input one — sets the status line to the error message and shows
one blocking error dialog carrying the raised condition description; a
failure raised inside the transcriber likewise leaves the file system as the
normalizer left it (no document is saved), sets the error status and shows
the error dialog; on success the status line shows the success message and
one blocking information dialog naming the output path. -/
theorem transcribe_outcome_reporting :
    (∀ (ml : Except Err Unit) (model : Path → List (Except Err Segment))
        (st : AppState) (fs : FS) (sel out : Path) (e : Err),
      st.selected_file = some sel → st.output_file = some out →
      (validate_and_convert_file fs sel).1 = .error e →
      transcribe ml model st fs =
        ({ st with status_label := "Une erreur s\x27est produite." }, fs,
          [.critical "Erreur" e.message])) ∧
    (∀ (ml : Except Err Unit) (model : Path → List (Except Err Segment))
        (st : AppState) (fs fs₁ : FS) (sel out ap : Path) (e : Err),
      st.selected_file = some sel → st.output_file = some out →
      validate_and_convert_file fs sel = (.ok ap, fs₁) →
      (transcribe_audio ml model ap out fs₁).1 = .error e →
      transcribe ml model st fs =
        ({ st with status_label := "Une erreur s\x27est produite." }, fs₁,
          [.critical "Erreur" e.message])) ∧
    (∀ (ml : Except Err Unit) (model : Path → List (Except Err Segment))
        (st : AppState) (fs fs₁ fs₂ : FS) (sel out ap : Path),
      st.selected_file = some sel → st.output_file = some out →
      validate_and_convert_file fs sel = (.ok ap, fs₁) →
      transcribe_audio ml model ap out fs₁ = (.ok (), fs₂) →
      transcribe ml model st fs =
        ({ st with status_label := "Transcription terminée avec succès !" }, fs₂,
          [.information "Succès"
            ("La transcription a été enregistrée dans " ++ String.mk out ++ ".")])) := by
  refine ⟨?_, ?_, ?_⟩
  · intro ml model st fs sel out e h1 h2 hv
    have hv2 := validate_and_convert_error_eq fs sel e hv
    simp [transcribe, h1, h2, hv2]
  · intro ml model st fs fs₁ sel out ap e h1 h2 hv hta
    have hta2 := transcribe_audio_error_eq ml model ap out fs₁ e hta
    simp [transcribe, h1, h2, hv, hta2]
  · intro ml model st fs fs₁ fs₂ sel out ap h1 h2 hv hta
    simp [transcribe, h1, h2, hv, hta]

/-- C8 witness: a not-found failure, a model failure and a successful run,
each reported as the claim states, on a concrete disk and state. -/
theorem transcribe_outcome_reporting_witness :
    transcribe (.ok ()) noModel stMissing fsAudio =
      ({ stMissing with status_label := "Une erreur s\x27est produite." }, fsAudio,
        [.critical "Erreur" "Le fichier n\x27existe pas."]) ∧
    transcribe (.ok ()) errModel stReady fsAudio =
      ({ stReady with status_label := "Une erreur s\x27est produite." }, fsAudio,
        [.critical "Erreur" "model failure"]) ∧
    transcribe (.ok ()) noModel stReady fsAudio =
      ({ stReady with status_label := "Transcription terminée avec succès !" },
        fsWrite fsAudio "out.docx".toList (.doc [Para.heading "Transcription" 1]),
        [.information "Succès"
          ("La transcription a été enregistrée dans " ++ String.mk "out.docx".toList
            ++ ".")]) :=
  ⟨transcribe_outcome_reporting.1 (.ok ()) noModel stMissing fsAudio
      "missing.wav".toList "out.docx".toList
      (.fileNotFoundError "Le fichier n\x27existe pas.") rfl rfl rfl,
    transcribe_outcome_reporting.2.1 (.ok ()) errModel stReady fsAudio fsAudio
      "a.wav".toList "out.docx".toList "a.wav".toList
      (.delegatedError "model failure") rfl rfl rfl rfl,
    transcribe_outcome_reporting.2.2 (.ok ()) noModel stReady fsAudio fsAudio
      (fsWrite fsAudio "out.docx".toList (.doc [Para.heading "Transcription" 1]))
      "a.wav".toList "out.docx".toList "a.wav".toList rfl rfl rfl rfl⟩

/-- C10: a cancelled file dialog (empty returned path) leaves the whole
application state — both stored paths, both path labels and the status
line — unchanged, in the input handler and in the output handler. -/
theorem dialog_cancel_leaves_state (st : AppState) :
    select_file st [] = st ∧ select_output_file st [] = st :=
  ⟨rfl, rfl⟩

end Transcripto
